import Mathlib

/-!
Verification development for the `social_auth` persistence mixins
(`social_auth/db/base.py`) and exception taxonomy (`social_auth/exceptions.py`).

The Python code is shallowly embedded: ORM tables become Lean lists of
records, ORM calls become pure functions on those lists, Python exceptions
raised by ORM `get` become an explicit `PyResult` type, and wall-clock time
is an explicit integer parameter (epoch seconds). Machine-level details the
code does not depend on (sub-second precision, unicode word classes beyond
ASCII) are noted where they are abstracted.
-/

/-! ### Python values and helpers

`extra_data` is a JSON-ish bag; the code only distinguishes integers,
strings and `None` (via `int(...)` raising `ValueError`/`TypeError`).
-/

inductive PyVal where
  | vint (n : Int)
  | vstr (s : String)
  | vnone
deriving DecidableEq, Repr

/-- Decimal digit value of a character, when it is one. -/
def charDigit (c : Char) : Option Nat :=
  if c.isDigit then some (c.toNat - 48) else none

/-- Accumulate a decimal digit string left to right; any non-digit fails. -/
def digitsValAux : List Char → Nat → Option Nat
  | [], acc => some acc
  | c :: cs, acc =>
    match charDigit c with
    | some dg => digitsValAux cs (acc * 10 + dg)
    | none => none

/-- Python `int(s)` on a string: an optional sign followed by at least one
decimal digit (surrounding whitespace, accepted by Python, is abstracted
away); anything else raises `ValueError`, modelled as `none`. -/
def pyIntOfString (s : String) : Option Int :=
  match s.data with
  | '-' :: cs =>
      if cs = [] then none else (digitsValAux cs 0).map (fun n => -(n : Int))
  | '+' :: cs =>
      if cs = [] then none else (digitsValAux cs 0).map (fun n => (n : Int))
  | cs =>
      if cs = [] then none else (digitsValAux cs 0).map (fun n => (n : Int))

/-- Python `int(value)` on an extra-data value: an int converts to itself, a
string is parsed as a decimal integer (`ValueError` on failure), `None`
raises `TypeError`. Failure is `none`. -/
def pyToInt : PyVal → Option Int
  | .vint n => some n
  | .vstr s => pyIntOfString s
  | .vnone => none

/-- ASCII lowercase of a string, character by character (the `__iexact`
lookup's case folding). -/
def strLower (s : String) : String := ⟨s.data.map Char.toLower⟩

/-- Python dict membership `'k' in d` for an association-list model. -/
def dictHasKey (d : List (String × PyVal)) (k : String) : Bool :=
  d.any (fun p => p.1 == k)

/-- Python dict lookup `d[k]` (first binding wins, as each key occurs once
in a dict). -/
def dictGet (d : List (String × PyVal)) (k : String) : Option PyVal :=
  (d.find? (fun p => p.1 == k)).map (·.2)

/-! ### base64 (`base64.encodestring` / `base64.decodestring`)

Bytes are naturals below 256. `encodestring` produces the standard base64
alphabet with `=` padding and a trailing newline; `decodestring`
(`binascii.a2b_base64`) skips characters outside the alphabet (such as the
newlines `encodestring` inserts) and drops the padding. The 76-column line
wrapping of `encodestring` is pure whitespace that `decodestring` ignores,
so it is folded into the single trailing newline here. -/

def b64Alphabet : List Char :=
  "ABCDEFGHIJKLMNOPQRSTUVWXYZabcdefghijklmnopqrstuvwxyz0123456789+/".data

def b64EncChar (n : Nat) : Char := b64Alphabet.getD n '='

def b64DecVal (c : Char) : Nat := b64Alphabet.indexOf c

def isB64Char (c : Char) : Bool := b64Alphabet.contains c

/-- Split bytes into big-endian 6-bit groups (the value stream of base64
encoding, before the alphabet map and padding). -/
def toSixbits : List Nat → List Nat
  | a :: b :: c :: rest =>
      a / 4 :: ((a % 4) * 16 + b / 16) :: ((b % 16) * 4 + c / 64) :: c % 64 ::
        toSixbits rest
  | [a, b] => [a / 4, (a % 4) * 16 + b / 16, (b % 16) * 4]
  | [a] => [a / 4, (a % 4) * 16]
  | [] => []

/-- Reassemble bytes from big-endian 6-bit groups (base64 decoding after
the alphabet lookup). -/
def fromSixbits : List Nat → List Nat
  | p0 :: p1 :: p2 :: p3 :: rest =>
      (p0 * 4 + p1 / 16) :: ((p1 % 16) * 16 + p2 / 4) :: ((p2 % 4) * 64 + p3) ::
        fromSixbits rest
  | [p0, p1, p2] => [p0 * 4 + p1 / 16, (p1 % 16) * 16 + p2 / 4]
  | [p0, p1] => [p0 * 4 + p1 / 16]
  | _ => []

/-- `=` padding appended for a byte string of the given length. -/
def b64Pad (len : Nat) : List Char :=
  match len % 3 with
  | 0 => []
  | 1 => ['=', '=']
  | _ => ['=']

/-- `base64.encodestring(bs)`: alphabet characters for the 6-bit groups,
`=` padding, trailing newline. -/
def encodestring (bs : List Nat) : List Char :=
  (toSixbits bs).map b64EncChar ++ b64Pad bs.length ++ ['\n']

/-- `base64.decodestring(cs)`: drop everything outside the alphabet
(newlines, padding), look each kept character up, reassemble bytes. -/
def decodestring (cs : List Char) : List Nat :=
  fromSixbits ((cs.filter isB64Char).map b64DecVal)

/-! ### OpenID association store (`store_association`, `get_oid_associations`,
`remove_association`, `delete_associations`)

The `Association` ORM table is a list of rows; `id` is the primary key.
`OIDAssociation` is the external protocol library's association value. -/

structure OIDAssociation where
  handle : String
  secret : List Nat
  issued : Int
  lifetime : Int
  assoc_type : String
deriving DecidableEq, Repr

structure AssocRow where
  id : Nat
  server_url : String
  handle : String
  secret : List Char
  issued : Int
  lifetime : Int
  assoc_type : String
deriving DecidableEq, Repr

abbrev AssocStore := List AssocRow

/-- Key match used by `store_association`'s `Association.objects.get(**args)`
and by the handle-filtered queries. -/
def assocKeyMatch (url handle : String) (r : AssocRow) : Bool :=
  r.server_url == url && r.handle == handle

/-- The field overwrite `store_association` performs on the row keyed by
(server_url, handle): secret (base64-encoded), issued, lifetime and
assoc_type; other rows are untouched. -/
def updateAssocRow (server_url : String) (a : OIDAssociation) (r : AssocRow) :
    AssocRow :=
  if assocKeyMatch server_url a.handle r then
    { r with secret := encodestring a.secret, issued := a.issued,
             lifetime := a.lifetime, assoc_type := a.assoc_type }
  else r

/-- `store_association(server_url, association)`: fetch the row keyed by
(server_url, handle), creating it if absent (`nextId` is the primary key the
database would assign), then overwrite secret (base64-encoded), issued,
lifetime and assoc_type, and save. -/
def store_association (store : AssocStore) (nextId : Nat) (server_url : String)
    (a : OIDAssociation) : AssocStore :=
  if store.any (assocKeyMatch server_url a.handle) then
    store.map (updateAssocRow server_url a)
  else
    store ++ [{ id := nextId, server_url := server_url, handle := a.handle,
                secret := encodestring a.secret, issued := a.issued,
                lifetime := a.lifetime, assoc_type := a.assoc_type }]

/-- Row filter of `Association.objects.filter(**args)` in
`get_oid_associations`: always by server_url, by handle only when given. -/
def assocQueryMatch (url : String) (handle : Option String) (r : AssocRow) : Bool :=
  r.server_url == url &&
    match handle with
    | some h => r.handle == h
    | none => true

/-- `get_oid_associations(server_url, handle=None)`: the matching rows as
(id, OIDAssociation) pairs with the secret base64-decoded, sorted by issued
descending (Python's stable `sorted` with `reverse=True`). -/
def get_oid_associations (store : AssocStore) (server_url : String)
    (handle : Option String) : List (Nat × OIDAssociation) :=
  ((store.filter (assocQueryMatch server_url handle)).map (fun r =>
      (r.id, OIDAssociation.mk r.handle (decodestring r.secret)
        r.issued r.lifetime r.assoc_type))).mergeSort
    (fun x y => decide (y.2.issued ≤ x.2.issued))

/-- `remove_association(server_url, handle)`: delete every row with that
key; return whether any existed. Result is (new table, return value). -/
def remove_association (store : AssocStore) (server_url handle : String) :
    AssocStore × Bool :=
  let assocs := store.filter (assocKeyMatch server_url handle)
  (store.filter (fun r => !assocKeyMatch server_url handle r), assocs.length > 0)

/-- `delete_associations(ids_to_delete)`: bulk delete by primary key set. -/
def delete_associations (store : AssocStore) (ids : List Nat) : AssocStore :=
  store.filter (fun r => !ids.contains r.id)

/-! ### Nonce store (`use_nonce`) -/

structure NonceRow where
  server_url : String
  timestamp : Int
  salt : String
deriving DecidableEq, Repr

abbrev NonceStore := List NonceRow

/-- `use_nonce(server_url, timestamp, salt)`:
`Nonce.objects.get_or_create(...)[1]` — create the row when absent, and
return the `created` flag. Result is (new table, return value). -/
def use_nonce (store : NonceStore) (server_url : String) (timestamp : Int)
    (salt : String) : NonceStore × Bool :=
  if store.contains ⟨server_url, timestamp, salt⟩ then
    (store, false)
  else
    (store ++ [⟨server_url, timestamp, salt⟩], true)

/-! ### User and social-identity lookups

`PyResult` distinguishes a value returned from an exception propagating out
of the method; only the exceptions the code names are modelled. ORM
`objects.get` raises `DoesNotExist` on zero matches and
`MultipleObjectsReturned` on several. -/

inductive PyResult (α : Type) where
  | ok (a : α)
  | raised (exc : String)
deriving DecidableEq, Repr

structure UserRow where
  pk : Nat
  email : String
  has_usable_password : Bool
deriving DecidableEq, Repr

structure SocialAuthRow where
  id : Nat
  user : Nat
  provider : String
  uid : String
deriving DecidableEq, Repr

/-- ORM `objects.get` over a table with a boolean row predicate. -/
def ormGet {α : Type} (table : List α) (p : α → Bool) : PyResult α :=
  match table.filter p with
  | [u] => .ok u
  | [] => .raised "DoesNotExist"
  | _ => .raised "MultipleObjectsReturned"

/-- `get_user(pk)`: `objects.get(pk=pk)` with `DoesNotExist` caught and
translated to `None`; other exceptions propagate. -/
def get_user (users : List UserRow) (pk : Nat) : PyResult (Option UserRow) :=
  match ormGet users (fun u => u.pk == pk) with
  | .ok u => .ok (some u)
  | .raised e => if e == "DoesNotExist" then .ok none else .raised e

/-- `get_user_by_email(email)`: case-insensitive `objects.get(email__iexact=
email)` with no exception handler — a miss propagates `DoesNotExist`. -/
def get_user_by_email (users : List UserRow) (email : String) : PyResult UserRow :=
  ormGet users (fun u => strLower u.email == strLower email)

/-- `get_social_auth(provider, uid)`: `objects.get(provider=provider,
uid=uid)` with `DoesNotExist` caught and translated to `None`. The `uid`
argument is coerced to `str` first; it is taken already as a string here. -/
def get_social_auth (records : List SocialAuthRow) (provider uid : String) :
    PyResult (Option SocialAuthRow) :=
  match ormGet records (fun r => r.provider == provider && r.uid == uid) with
  | .ok r => .ok (some r)
  | .raised e => if e == "DoesNotExist" then .ok none else .raised e

/-! ### `allowed_to_disconnect` -/

/-- `allowed_to_disconnect(user, backend_name, association_id=None)`.
`records` is the social-auth table; `user` is the user's primary key;
`password_attr` is `user.has_usable_password()` when the user model has that
attribute, `none` otherwise (in which case the code assumes a valid
password). When an association id is given the query excludes that row,
otherwise it excludes every row of `backend_name`; the remainder is
restricted to the user's rows. -/
def allowed_to_disconnect (records : List SocialAuthRow) (user : Nat)
    (password_attr : Option Bool) (backend_name : String)
    (association_id : Option Nat) : Bool :=
  let qs :=
    match association_id with
    | some aid => records.filter (fun (r : SocialAuthRow) => !(r.id == aid))
    | none => records.filter (fun (r : SocialAuthRow) => !(r.provider == backend_name))
  let qs := qs.filter (fun r => r.user == user)
  let valid_password :=
    match password_attr with
    | some b => b
    | none => true
  valid_password || qs.length > 0

/-! ### `clean_username`

`CLEAN_USERNAME_REGEX = re.compile(r'[^\w.@+-_]+', re.UNICODE)` and
`clean_username` substitutes its matches with the empty string, i.e. it
keeps exactly the characters of the class `[\w.@+-_]`. Inside that class
`+-_` is a character range from `+` (0x2B) to `_` (0x5F); `\w` is modelled
by its ASCII fragment `[A-Za-z0-9_]`. -/

def cleanUsernameAllowed (c : Char) : Bool :=
  (c.isAlpha || c.isDigit || c == '_') || c == '.' || c == '@' ||
    (0x2B ≤ c.toNat && c.toNat ≤ 0x5F)

/-- `clean_username(value)`: remove every character outside the permitted
class. -/
def clean_username (value : String) : String :=
  ⟨value.data.filter cleanUsernameAllowed⟩

/-! ### `expiration_datetime`

Wall-clock time enters as `now`, the current epoch seconds
(`time.mktime(datetime.now().timetuple())`); the returned `timedelta` is
its whole-seconds value (sub-second precision is below the embedding).
`extra_data` is `none` when the attribute is `None`; an empty bag is falsy
like `None`. -/

def expiration_datetime (extra_data : Option (List (String × PyVal)))
    (now : Int) : Option Int :=
  match extra_data with
  | none => none
  | some d =>
    if d ≠ [] ∧ dictHasKey d "expires" then
      match (dictGet d "expires").bind pyToInt with
      | none => none
      | some expires =>
        if expires > now then
          some (expires - now)
        else
          some expires
    else none

/-! ### `refresh_token`

The backend is abstracted: `backend_has_refresh` is
`hasattr(backend, 'refresh_token')` (false also covers no backend), and
`backend_extra_data token` is the new extra-data computed from the
provider's refresh response. The outcome records the final bag, whether the
backend's refresh endpoint was called, and whether the row was saved. -/

structure RefreshOutcome where
  extra_data : List (String × PyVal)
  backend_called : Bool
  saved : Bool
deriving DecidableEq, Repr

/-- Python truthiness of an extra-data value (`data.get(a) or data.get(b)`
falls through on falsy values). -/
def pyTruthy : Option PyVal → Bool
  | none => false
  | some .vnone => false
  | some (.vint n) => !(n == 0)
  | some (.vstr s) => !(s == "")

/-- `dict.update(other)`: bindings from `other` replace existing ones and
append the rest. -/
def dictUpdate (d other : List (String × PyVal)) : List (String × PyVal) :=
  d.map (fun p =>
    match other.find? (fun q => q.1 == p.1) with
    | some q => (p.1, q.2)
    | none => p) ++
  other.filter (fun q => !(dictHasKey d q.1))

/-- `refresh_token()`: only when a `refresh_token` or `access_token` is in
the bag, and the backend has a refresh flow, call it with the
refresh-token-or-else-access-token value, merge the resulting extra data
into the bag and save. -/
def refresh_token (extra_data : List (String × PyVal))
    (backend_has_refresh : Bool)
    (backend_extra_data : Option PyVal → List (String × PyVal)) :
    RefreshOutcome :=
  if dictHasKey extra_data "refresh_token" || dictHasKey extra_data "access_token" then
    if backend_has_refresh then
      let token :=
        if pyTruthy (dictGet extra_data "refresh_token") then
          dictGet extra_data "refresh_token"
        else
          dictGet extra_data "access_token"
      { extra_data := dictUpdate extra_data (backend_extra_data token),
        backend_called := true, saved := true }
    else
      { extra_data := extra_data, backend_called := false, saved := false }
  else
    { extra_data := extra_data, backend_called := false, saved := false }

/-! ### Exception taxonomy (`social_auth/exceptions.py`)

The class hierarchy is embedded as an enumeration with a superclass map.
Instances carry the attributes the constructors set; `args` are the
positional message arguments forwarded to the built-in exception
constructor. Python 2's default exception text for a single argument is
that argument, and the empty string for no arguments; `__unicode__`
overrides are translated literally (`%s` becomes string append). -/

inductive ExcClass where
  | ValueError
  | SocialAuthBaseException
  | WrongBackend
  | NotAllowedToDisconnect
  | StopPipeline
  | AuthException
  | AuthFailed
  | AuthCanceled
  | AuthUnknownError
  | AuthTokenError
  | AuthMissingParameter
  | AuthStateMissing
  | AuthStateForbidden
  | AuthAlreadyAssociated
  | AuthTokenRevoked
deriving DecidableEq, Repr

/-- Direct superclass (`class X(Y)`); `ValueError` is the built-in root
here. -/
def superclass : ExcClass → Option ExcClass
  | .ValueError => none
  | .SocialAuthBaseException => some .ValueError
  | .WrongBackend => some .SocialAuthBaseException
  | .NotAllowedToDisconnect => some .SocialAuthBaseException
  | .StopPipeline => some .SocialAuthBaseException
  | .AuthException => some .SocialAuthBaseException
  | .AuthFailed => some .AuthException
  | .AuthCanceled => some .AuthException
  | .AuthUnknownError => some .AuthException
  | .AuthTokenError => some .AuthException
  | .AuthMissingParameter => some .AuthException
  | .AuthStateMissing => some .AuthException
  | .AuthStateForbidden => some .AuthException
  | .AuthAlreadyAssociated => some .AuthException
  | .AuthTokenRevoked => some .AuthException

/-- Proper ancestors, by iterating `superclass` (the hierarchy has depth
below 16). -/
def ancestorsAux : Nat → ExcClass → List ExcClass
  | 0, _ => []
  | n + 1, c =>
    match superclass c with
    | none => []
    | some p => p :: ancestorsAux n p

def ancestors (c : ExcClass) : List ExcClass := ancestorsAux 16 c

/-- Python `issubclass` (reflexive). -/
def isSubclassOf (c d : ExcClass) : Bool := c == d || (ancestors c).contains d

/-- The classes defined by the module. -/
def taxonomyClasses : List ExcClass :=
  [.SocialAuthBaseException, .WrongBackend, .NotAllowedToDisconnect,
   .StopPipeline, .AuthException, .AuthFailed, .AuthCanceled,
   .AuthUnknownError, .AuthTokenError, .AuthMissingParameter,
   .AuthStateMissing, .AuthStateForbidden, .AuthAlreadyAssociated,
   .AuthTokenRevoked]

/-- The auth-exception family: subclasses of `AuthException` named by the
spec. -/
def authFamily : List ExcClass :=
  [.AuthFailed, .AuthCanceled, .AuthUnknownError, .AuthTokenError,
   .AuthMissingParameter, .AuthStateMissing, .AuthStateForbidden,
   .AuthAlreadyAssociated, .AuthTokenRevoked]

/-- A constructed exception instance: its class and the attributes set by
the constructors (`backend`, `parameter`) plus the positional args. -/
structure ExcInstance where
  cls : ExcClass
  backend : String
  parameter : Option String
  args : List String
deriving DecidableEq, Repr

/-- `AuthException.__init__(self, backend, *args)`, inherited by every
family member except `AuthMissingParameter`: store the backend, forward the
rest. -/
def authExceptionInit (cls : ExcClass) (backend : String) (args : List String) :
    ExcInstance :=
  { cls := cls, backend := backend, parameter := none, args := args }

/-- `AuthMissingParameter.__init__(self, backend, parameter, *args)`: store
the parameter, then delegate to `AuthException.__init__` with the backend. -/
def authMissingParameterInit (backend parameter : String) (args : List String) :
    ExcInstance :=
  { authExceptionInit .AuthMissingParameter backend args with
      parameter := some parameter }

/-- Python 2 `Exception.message` / default text: the first positional
argument, or the empty string. -/
def excMessage (e : ExcInstance) : String := e.args.headD ""

/-- `__unicode__` of each class, as written in the source; classes without
an override inherit the default exception text. -/
def excUnicode (e : ExcInstance) : String :=
  match e.cls with
  | .WrongBackend => "Incorrect authentication service \"" ++ e.backend ++ "\""
  | .StopPipeline => "Stop pipeline"
  | .AuthFailed =>
      if excMessage e == "access_denied" then
        "Authentication process was cancelled"
      else
        "Authentication failed: " ++ excMessage e
  | .AuthCanceled => "Authentication process canceled"
  | .AuthUnknownError =>
      "An unknown error happened while authenticating " ++ excMessage e
  | .AuthTokenError => "Token error: " ++ excMessage e
  | .AuthMissingParameter =>
      "Missing needed parameter " ++ (e.parameter.getD "")
  | .AuthStateMissing => "Session value state missing."
  | .AuthStateForbidden => "Wrong state parameter given."
  | .AuthTokenRevoked => "User revoke access to the token"
  | _ => excMessage e

/-! ### base64 round-trip lemmas -/

theorem b64DecVal_b64EncChar_fin : ∀ n : Fin 64, b64DecVal (b64EncChar n.val) = n.val := by
  decide

theorem b64DecVal_b64EncChar (n : Nat) (h : n < 64) :
    b64DecVal (b64EncChar n) = n :=
  b64DecVal_b64EncChar_fin ⟨n, h⟩

theorem isB64Char_b64EncChar_fin : ∀ n : Fin 64, isB64Char (b64EncChar n.val) = true := by
  decide

theorem isB64Char_b64EncChar (n : Nat) (h : n < 64) :
    isB64Char (b64EncChar n) = true :=
  isB64Char_b64EncChar_fin ⟨n, h⟩

theorem toSixbits_lt : ∀ bs : List Nat, (∀ b ∈ bs, b < 256) →
    ∀ v ∈ toSixbits bs, v < 64 := by
  intro bs
  induction bs using toSixbits.induct with
  | case1 a b c rest ih =>
      intro h
      have ha := h a (by simp)
      have hb := h b (by simp)
      have hc := h c (by simp)
      intro v hv
      simp only [toSixbits, List.mem_cons] at hv
      rcases hv with rfl | rfl | rfl | rfl | hv
      · omega
      · omega
      · omega
      · omega
      · exact ih (fun x hx => h x (by simp [hx])) v hv
  | case2 a b =>
      intro h
      have ha := h a (by simp)
      have hb := h b (by simp)
      intro v hv
      simp only [toSixbits, List.mem_cons, List.not_mem_nil, or_false] at hv
      rcases hv with rfl | rfl | rfl <;> omega
  | case3 a =>
      intro h
      have ha := h a (by simp)
      intro v hv
      simp only [toSixbits, List.mem_cons, List.not_mem_nil, or_false] at hv
      rcases hv with rfl | rfl <;> omega
  | case4 => intro _ v hv; simp [toSixbits] at hv

theorem fromSixbits_toSixbits : ∀ bs : List Nat, (∀ b ∈ bs, b < 256) →
    fromSixbits (toSixbits bs) = bs := by
  intro bs
  induction bs using toSixbits.induct with
  | case1 a b c rest ih =>
      intro h
      have ha := h a (by simp)
      have hb := h b (by simp)
      have hc := h c (by simp)
      simp only [toSixbits, fromSixbits]
      rw [ih (fun x hx => h x (by simp [hx]))]
      simp only [List.cons.injEq]
      refine ⟨by omega, by omega, by omega, trivial⟩
  | case2 a b =>
      intro h
      have ha := h a (by simp)
      have hb := h b (by simp)
      simp only [toSixbits, fromSixbits]
      simp only [List.cons.injEq]
      refine ⟨by omega, by omega, trivial⟩
  | case3 a =>
      intro h
      have ha := h a (by simp)
      simp only [toSixbits, fromSixbits]
      simp only [List.cons.injEq]
      refine ⟨by omega, trivial⟩
  | case4 => intro _; simp [toSixbits, fromSixbits]

theorem decodestring_encodestring (bs : List Nat) (h : ∀ b ∈ bs, b < 256) :
    decodestring (encodestring bs) = bs := by
  have hlt := toSixbits_lt bs h
  unfold decodestring encodestring
  rw [List.filter_append, List.filter_append]
  have h1 : List.filter isB64Char ((toSixbits bs).map b64EncChar) =
      (toSixbits bs).map b64EncChar := by
    rw [List.filter_eq_self]
    intro c hc
    rcases List.mem_map.mp hc with ⟨v, hv, rfl⟩
    exact isB64Char_b64EncChar v (hlt v hv)
  have h2 : List.filter isB64Char (b64Pad bs.length) = [] := by
    unfold b64Pad
    rcases bs.length % 3 with _ | _ | k
    · rfl
    · decide
    · show List.filter isB64Char ['='] = []
      decide
  have h3 : List.filter isB64Char ['\n'] = [] := by decide
  rw [h1, h2, h3, List.append_nil, List.append_nil, List.map_map]
  have h4 : (toSixbits bs).map (b64DecVal ∘ b64EncChar) = toSixbits bs := by
    have hcongr : (toSixbits bs).map (b64DecVal ∘ b64EncChar) = (toSixbits bs).map id :=
      List.map_congr_left (fun v hv => b64DecVal_b64EncChar v (hlt v hv))
    rw [hcongr, List.map_id]
  rw [h4]
  exact fromSixbits_toSixbits bs h

/-! ## Claim theorems -/

/-- C7: username cleaning is idempotent — cleaning a cleaned username
changes nothing — and a username made only of permitted characters is
returned unchanged. -/
theorem C7_clean_username_idempotent :
    (∀ s : String, clean_username (clean_username s) = clean_username s) ∧
    (∀ s : String, (∀ c ∈ s.data, cleanUsernameAllowed c = true) →
      clean_username s = s) := by
  constructor
  · intro s
    unfold clean_username
    have : (s.data.filter cleanUsernameAllowed).filter cleanUsernameAllowed =
        s.data.filter cleanUsernameAllowed := by
      rw [List.filter_filter]
      exact List.filter_congr (fun c _ => Bool.and_self _)
    rw [this]
  · intro s h
    unfold clean_username
    rw [List.filter_eq_self.mpr h]

/-- C7 witness: a concrete already-clean username is a fixed point. -/
theorem C7_clean_username_idempotent_witness :
    clean_username "john.doe+test@host_1" = "john.doe+test@host_1" :=
  C7_clean_username_idempotent.2 "john.doe+test@host_1" (by decide)

/-- C8: when the extra-data bag has neither a refresh token nor an access
token, `refresh_token` calls no backend, leaves the bag unchanged and does
not save. -/
theorem C8_refresh_token_noop (d : List (String × PyVal))
    (backend_has_refresh : Bool)
    (backend_extra_data : Option PyVal → List (String × PyVal))
    (h1 : dictHasKey d "refresh_token" = false)
    (h2 : dictHasKey d "access_token" = false) :
    refresh_token d backend_has_refresh backend_extra_data =
      { extra_data := d, backend_called := false, saved := false } := by
  unfold refresh_token
  rw [h1, h2]
  rfl

/-- C8 witness: a concrete bag with unrelated keys is untouched. -/
theorem C8_refresh_token_noop_witness :
    refresh_token [("expires", PyVal.vint 3600)] true (fun _ => [("access_token", PyVal.vstr "t")]) =
      { extra_data := [("expires", PyVal.vint 3600)],
        backend_called := false, saved := false } :=
  C8_refresh_token_noop [("expires", PyVal.vint 3600)] true
    (fun _ => [("access_token", PyVal.vstr "t")]) (by decide) (by decide)

/-- C3: `use_nonce` on a (server_url, timestamp, salt) triple not yet in the
store returns `true` and records the triple; once the triple is in the
store, `use_nonce` on it returns `false` and changes nothing; and no call
ever removes a recorded triple — so the first call on a triple returns
`true` and every subsequent identical call returns `false`. -/
theorem C3_use_nonce_first_only :
    (∀ (store : NonceStore) (url : String) (ts : Int) (salt : String),
      (⟨url, ts, salt⟩ : NonceRow) ∉ store →
        (use_nonce store url ts salt).2 = true ∧
        (⟨url, ts, salt⟩ : NonceRow) ∈ (use_nonce store url ts salt).1) ∧
    (∀ (store : NonceStore) (url : String) (ts : Int) (salt : String),
      (⟨url, ts, salt⟩ : NonceRow) ∈ store →
        (use_nonce store url ts salt).2 = false ∧
        (use_nonce store url ts salt).1 = store) ∧
    (∀ (store : NonceStore) (url : String) (ts : Int) (salt : String)
      (n : NonceRow), n ∈ store → n ∈ (use_nonce store url ts salt).1) := by
  refine ⟨?_, ?_, ?_⟩
  · intro store url ts salt hnot
    unfold use_nonce
    rw [if_neg (by simpa [List.elem_iff] using hnot)]
    exact ⟨rfl, by simp⟩
  · intro store url ts salt hin
    unfold use_nonce
    rw [if_pos (by simpa [List.elem_iff] using hin)]
    exact ⟨rfl, rfl⟩
  · intro store url ts salt n hn
    unfold use_nonce
    by_cases hc : store.contains (⟨url, ts, salt⟩ : NonceRow) = true
    · rw [if_pos hc]; exact hn
    · rw [if_neg hc]; simp [hn]

/-- C3 witness: on an empty store the first use of a concrete triple
returns `true`, and the immediate second use of the same triple returns
`false`. -/
theorem C3_use_nonce_first_only_witness :
    (use_nonce [] "https://idp.example.com" 1700000000 "s4lt").2 = true ∧
    (use_nonce (use_nonce [] "https://idp.example.com" 1700000000 "s4lt").1
        "https://idp.example.com" 1700000000 "s4lt").2 = false := by
  refine ⟨(C3_use_nonce_first_only.1 [] "https://idp.example.com" 1700000000 "s4lt"
    (by decide)).1, ?_⟩
  exact (C3_use_nonce_first_only.2.1 _ "https://idp.example.com" 1700000000 "s4lt"
    ((C3_use_nonce_first_only.1 [] "https://idp.example.com" 1700000000 "s4lt"
      (by decide)).2)).1

/-- C10: `remove_association(server_url, handle)` returns `true` exactly
when some association with that key existed, and afterwards no association
with that key remains. -/
theorem C10_remove_association_spec (store : AssocStore) (url handle : String) :
    ((remove_association store url handle).2 = true ↔
      ∃ r ∈ store, assocKeyMatch url handle r = true) ∧
    (∀ r ∈ (remove_association store url handle).1,
      assocKeyMatch url handle r = false) := by
  constructor
  · unfold remove_association
    simp only [decide_eq_true_eq]
    constructor
    · intro hlen
      rcases List.exists_mem_of_length_pos hlen with ⟨r, hr⟩
      exact ⟨r, (List.mem_filter.mp hr).1, (List.mem_filter.mp hr).2⟩
    · rintro ⟨r, hr, hmatch⟩
      exact List.length_pos.mpr (fun hnil => by
        have := List.mem_filter.mpr ⟨hr, hmatch⟩
        rw [hnil] at this
        exact (List.not_mem_nil r) this)
  · intro r hr
    unfold remove_association at hr
    have := (List.mem_filter.mp hr).2
    simpa using this

/-- C10 witness: on a concrete two-row store, removal reports `true` and
the surviving row does not match the removed key. -/
theorem C10_remove_association_spec_witness :
    ((remove_association
        [⟨1, "https://a", "h1", [], 0, 0, "HMAC-SHA1"⟩,
         ⟨2, "https://b", "h2", [], 0, 0, "HMAC-SHA1"⟩] "https://a" "h1").2 = true) ∧
    (assocKeyMatch "https://a" "h1"
      (⟨2, "https://b", "h2", [], 0, 0, "HMAC-SHA1"⟩ : AssocRow) = false) := by
  refine ⟨(C10_remove_association_spec
      [⟨1, "https://a", "h1", [], 0, 0, "HMAC-SHA1"⟩,
       ⟨2, "https://b", "h2", [], 0, 0, "HMAC-SHA1"⟩] "https://a" "h1").1.mpr
    ⟨⟨1, "https://a", "h1", [], 0, 0, "HMAC-SHA1"⟩, by decide, by decide⟩, ?_⟩
  exact (C10_remove_association_spec
      [⟨1, "https://a", "h1", [], 0, 0, "HMAC-SHA1"⟩,
       ⟨2, "https://b", "h2", [], 0, 0, "HMAC-SHA1"⟩] "https://a" "h1").2
    ⟨2, "https://b", "h2", [], 0, 0, "HMAC-SHA1"⟩ (by decide)

/-- C4 counterexample: `get_user_by_email` has no not-found handler — on a
store with no users it propagates the framework's `DoesNotExist` exception
instead of returning `None`. -/
theorem C4_counterexample_get_user_by_email_raises :
    get_user_by_email ([] : List UserRow) "user@example.com" =
      PyResult.raised "DoesNotExist" := by
  decide

/-- C4 (amended): `get_user` returns `None` when no user has the primary
key, and `get_social_auth` returns `None` when no record matches
(provider, uid); `get_user_by_email`, however, propagates `DoesNotExist`
when no user has the email (case-insensitively). -/
theorem C4_not_found_lookups :
    (∀ (users : List UserRow) (pk : Nat), (∀ u ∈ users, u.pk ≠ pk) →
      get_user users pk = PyResult.ok none) ∧
    (∀ (records : List SocialAuthRow) (provider uid : String),
      (∀ r ∈ records, ¬(r.provider = provider ∧ r.uid = uid)) →
      get_social_auth records provider uid = PyResult.ok none) ∧
    (∀ (users : List UserRow) (email : String),
      (∀ u ∈ users, strLower u.email ≠ strLower email) →
      get_user_by_email users email = PyResult.raised "DoesNotExist") := by
  refine ⟨?_, ?_, ?_⟩
  · intro users pk h
    unfold get_user ormGet
    have hnil : users.filter (fun u => u.pk == pk) = [] :=
      List.filter_eq_nil_iff.mpr (fun u hu => by
        simpa using h u hu)
    rw [hnil]
    rfl
  · intro records provider uid h
    unfold get_social_auth ormGet
    have hnil : records.filter (fun r => r.provider == provider && r.uid == uid) = [] :=
      List.filter_eq_nil_iff.mpr (fun r hr => by
        have := h r hr
        simp only [Bool.and_eq_true, beq_iff_eq]
        tauto)
    rw [hnil]
    rfl
  · intro users email h
    unfold get_user_by_email ormGet
    have hnil : users.filter (fun u => strLower u.email == strLower email) = [] :=
      List.filter_eq_nil_iff.mpr (fun u hu => by
        simpa using h u hu)
    rw [hnil]

/-- C4 witness: concrete misses — a store holding one unrelated user and
one unrelated identity record. -/
theorem C4_not_found_lookups_witness :
    get_user [⟨7, "a@b.c", true⟩] 9 = PyResult.ok none ∧
    get_social_auth [⟨1, 7, "twitter", "42"⟩] "facebook" "42" = PyResult.ok none ∧
    get_user_by_email [⟨7, "a@b.c", true⟩] "missing@b.c" =
      PyResult.raised "DoesNotExist" :=
  ⟨C4_not_found_lookups.1 [⟨7, "a@b.c", true⟩] 9 (by decide),
   C4_not_found_lookups.2.1 [⟨1, 7, "twitter", "42"⟩] "facebook" "42" (by decide),
   C4_not_found_lookups.2.2 [⟨7, "a@b.c", true⟩] "missing@b.c" (by decide)⟩

/-- C1: with a numeric `expires` in the extra-data bag, a value above the
current epoch seconds is treated as an absolute timestamp and yields the
difference (value − now); a value at or below now is treated as a duration
and yields exactly that many seconds; a missing bag, missing key or
non-numeric value yields `None`. -/
theorem C1_expiration_datetime_spec :
    (∀ (d : List (String × PyVal)) (now e : Int),
      (dictGet d "expires").bind pyToInt = some e → e > now →
      expiration_datetime (some d) now = some (e - now)) ∧
    (∀ (d : List (String × PyVal)) (now e : Int),
      (dictGet d "expires").bind pyToInt = some e → e ≤ now →
      expiration_datetime (some d) now = some e) ∧
    (∀ (d : List (String × PyVal)) (now : Int),
      dictHasKey d "expires" = false → expiration_datetime (some d) now = none) ∧
    (∀ (d : List (String × PyVal)) (now : Int) (v : PyVal),
      dictGet d "expires" = some v → pyToInt v = none →
      expiration_datetime (some d) now = none) ∧
    (∀ now : Int, expiration_datetime none now = none) := by
  have hkey : ∀ (d : List (String × PyVal)) (v : PyVal),
      dictGet d "expires" = some v → (d ≠ [] ∧ dictHasKey d "expires" = true) := by
    intro d v hget
    unfold dictGet at hget
    rcases hf : d.find? (fun p => p.1 == "expires") with _ | q
    · rw [hf] at hget; simp at hget
    · constructor
      · intro hnil
        rw [hnil] at hf
        simp at hf
      · have hq := List.find?_some hf
        exact List.any_eq_true.mpr ⟨q, List.mem_of_find?_eq_some hf, hq⟩
  refine ⟨?_, ?_, ?_, ?_, ?_⟩
  · intro d now e hbind hgt
    rcases hv : dictGet d "expires" with _ | v
    · rw [hv] at hbind; simp at hbind
    · show (if d ≠ [] ∧ dictHasKey d "expires" = true then
          match (dictGet d "expires").bind pyToInt with
          | none => none
          | some expires =>
            if expires > now then some (expires - now) else some expires
        else none) = some (e - now)
      rw [if_pos (hkey d v hv), hbind]
      exact if_pos hgt
  · intro d now e hbind hle
    rcases hv : dictGet d "expires" with _ | v
    · rw [hv] at hbind; simp at hbind
    · show (if d ≠ [] ∧ dictHasKey d "expires" = true then
          match (dictGet d "expires").bind pyToInt with
          | none => none
          | some expires =>
            if expires > now then some (expires - now) else some expires
        else none) = some e
      rw [if_pos (hkey d v hv), hbind]
      exact if_neg (by omega)
  · intro d now hnokey
    show (if d ≠ [] ∧ dictHasKey d "expires" = true then
        match (dictGet d "expires").bind pyToInt with
        | none => none
        | some expires =>
          if expires > now then some (expires - now) else some expires
      else none) = none
    rw [if_neg (by simp [hnokey])]
  · intro d now v hget hconv
    show (if d ≠ [] ∧ dictHasKey d "expires" = true then
        match (dictGet d "expires").bind pyToInt with
        | none => none
        | some expires =>
          if expires > now then some (expires - now) else some expires
      else none) = none
    rw [if_pos (hkey d v hget), hget]
    show (match pyToInt v with
      | none => none
      | some expires =>
        if expires > now then some (expires - now) else some expires) = none
    rw [hconv]
  · intro now
    rfl

/-- C1 witness: concrete bags — a timestamp above now, a duration at or
below now, a non-numeric value, and a missing key. -/
theorem C1_expiration_datetime_spec_witness :
    expiration_datetime (some [("expires", PyVal.vint 2000)]) 1500 = some 500 ∧
    expiration_datetime (some [("expires", PyVal.vstr "3600")]) 5000 = some 3600 ∧
    expiration_datetime (some [("expires", PyVal.vstr "soon")]) 1500 = none ∧
    expiration_datetime (some [("other", PyVal.vint 1)]) 1500 = none :=
  ⟨C1_expiration_datetime_spec.1 [("expires", PyVal.vint 2000)] 1500 2000
      (by decide) (by decide),
   C1_expiration_datetime_spec.2.1 [("expires", PyVal.vstr "3600")] 5000 3600
      (by decide) (by decide),
   C1_expiration_datetime_spec.2.2.2.1 [("expires", PyVal.vstr "soon")] 1500
      (PyVal.vstr "soon") (by decide) (by decide),
   C1_expiration_datetime_spec.2.2.1 [("other", PyVal.vint 1)] 1500 (by decide)⟩

/-- C2: the unlink is refused (`allowed_to_disconnect` returns `false`)
exactly when the user's password is unusable and every linked identity of
the user is among those being removed (the row with the given association
id, or every row of the named backend); otherwise it returns `true`. A user
model without `has_usable_password` counts as having a usable password. -/
theorem C2_allowed_to_disconnect_spec (records : List SocialAuthRow)
    (user : Nat) (password_attr : Option Bool) (backend_name : String)
    (association_id : Option Nat) :
    allowed_to_disconnect records user password_attr backend_name association_id
        = false ↔
      (password_attr = some false ∧
        ∀ r ∈ records, r.user = user →
          match association_id with
          | some aid => r.id = aid
          | none => r.provider = backend_name) := by
  unfold allowed_to_disconnect
  cases password_attr with
  | none => simp
  | some b =>
    cases b with
    | true => simp
    | false =>
      cases association_id with
      | some aid =>
        simp only [Bool.false_or, decide_eq_false_iff_not, Nat.pos_iff_ne_zero,
          ne_eq, not_not, List.length_eq_zero, List.filter_filter,
          List.filter_eq_nil_iff]
        constructor
        · intro h
          refine ⟨by simp, fun r hr hru => ?_⟩
          have := h r hr
          simp only [Bool.and_eq_true, beq_iff_eq, Bool.not_eq_true',
            beq_eq_false_iff_ne, ne_eq] at this
          tauto
        · rintro ⟨-, h⟩ r hr
          intro hcontra
          simp only [Bool.and_eq_true, beq_iff_eq, Bool.not_eq_true',
            beq_eq_false_iff_ne, ne_eq] at hcontra
          exact hcontra.2 (h r hr hcontra.1)
      | none =>
        simp only [Bool.false_or, decide_eq_false_iff_not, Nat.pos_iff_ne_zero,
          ne_eq, not_not, List.length_eq_zero, List.filter_filter,
          List.filter_eq_nil_iff]
        constructor
        · intro h
          refine ⟨by simp, fun r hr hru => ?_⟩
          have := h r hr
          simp only [Bool.and_eq_true, beq_iff_eq, Bool.not_eq_true',
            beq_eq_false_iff_ne, ne_eq] at this
          tauto
        · rintro ⟨-, h⟩ r hr
          intro hcontra
          simp only [Bool.and_eq_true, beq_iff_eq, Bool.not_eq_true',
            beq_eq_false_iff_ne, ne_eq] at hcontra
          exact hcontra.2 (h r hr hcontra.1)

/-- C2 witness: a concrete refusal — no usable password and the only
identity is the one being removed — and, via the contrapositive direction,
a concrete permit when a second provider is linked. -/
theorem C2_allowed_to_disconnect_spec_witness :
    allowed_to_disconnect [⟨1, 7, "twitter", "42"⟩] 7 (some false) "twitter" none
        = false ∧
    ¬(allowed_to_disconnect [⟨1, 7, "twitter", "42"⟩, ⟨2, 7, "github", "g"⟩] 7
        (some false) "twitter" none = false) :=
  ⟨(C2_allowed_to_disconnect_spec [⟨1, 7, "twitter", "42"⟩] 7 (some false)
      "twitter" none).mpr ⟨rfl, by decide⟩,
   fun h => by
    have := ((C2_allowed_to_disconnect_spec
      [⟨1, 7, "twitter", "42"⟩, ⟨2, 7, "github", "g"⟩] 7 (some false)
      "twitter" none).mp h).2 ⟨2, 7, "github", "g"⟩ (by decide) rfl
    simp at this⟩

/-- C6: the list returned by `get_oid_associations` is sorted by issuance
time in descending order, for every server URL and optional handle
filter. -/
theorem C6_get_oid_associations_sorted_desc (store : AssocStore)
    (server_url : String) (handle : Option String) :
    (get_oid_associations store server_url handle).Pairwise
      (fun x y => y.2.issued ≤ x.2.issued) := by
  unfold get_oid_associations
  apply List.Pairwise.imp
  · intro x y hxy
    exact of_decide_eq_true hxy
  · apply List.sorted_mergeSort
    · intro x y z hxy hyz
      simp only [decide_eq_true_eq] at *
      omega
    · intro x y
      simp only [Bool.or_eq_true, decide_eq_true_eq]
      omega

/-- Nonempty string with a nonempty prefix: helper for message
readability. -/
theorem str_append_ne_empty (s t : String) (h : s.length ≠ 0) : s ++ t ≠ "" := by
  intro he
  have hlen : s.length + t.length = ("" : String).length := by
    rw [← String.length_append, he]
  have h0 : ("" : String).length = 0 := rfl
  omega

/-- C9: every class of the taxonomy is a subclass of
`SocialAuthBaseException`, which directly extends `ValueError`; every
auth-family member is a subclass of `AuthException`; the inherited
constructor stores the backend on the instance, and
`AuthMissingParameter`'s constructor additionally stores the parameter
name; and each family member's message rendering is a nonempty
human-readable string (given a nonempty detail message where the class
echoes its argument). -/
theorem C9_exception_taxonomy :
    (∀ c ∈ taxonomyClasses, isSubclassOf c ExcClass.SocialAuthBaseException = true) ∧
    superclass ExcClass.SocialAuthBaseException = some ExcClass.ValueError ∧
    (∀ c ∈ authFamily, isSubclassOf c ExcClass.AuthException = true) ∧
    (∀ (cls : ExcClass) (backend : String) (args : List String),
      (authExceptionInit cls backend args).backend = backend) ∧
    (∀ (backend parameter : String) (args : List String),
      (authMissingParameterInit backend parameter args).backend = backend ∧
      (authMissingParameterInit backend parameter args).parameter = some parameter) ∧
    (∀ c ∈ authFamily, ∀ (backend msg : String), msg ≠ "" →
      c ≠ ExcClass.AuthMissingParameter →
      excUnicode (authExceptionInit c backend [msg]) ≠ "") ∧
    (∀ backend parameter : String,
      excUnicode (authMissingParameterInit backend parameter []) ≠ "") := by
  refine ⟨by decide, rfl, by decide, fun cls backend args => rfl,
    fun backend parameter args => ⟨rfl, rfl⟩, ?_, ?_⟩
  · intro c hc backend msg hmsg hnotmp
    simp only [authFamily, List.mem_cons, List.not_mem_nil, or_false] at hc
    rcases hc with rfl | rfl | rfl | rfl | rfl | rfl | rfl | rfl | rfl
    · show (if (msg == "access_denied") = true then
          "Authentication process was cancelled"
        else "Authentication failed: " ++ msg) ≠ ""
      by_cases hacc : (msg == "access_denied") = true
      · rw [if_pos hacc]; decide
      · rw [if_neg hacc]
        exact str_append_ne_empty "Authentication failed: " msg (by decide)
    · show "Authentication process canceled" ≠ ""
      decide
    · exact str_append_ne_empty "An unknown error happened while authenticating "
        msg (by decide)
    · exact str_append_ne_empty "Token error: " msg (by decide)
    · exact absurd rfl hnotmp
    · show "Session value state missing." ≠ ""
      decide
    · show "Wrong state parameter given." ≠ ""
      decide
    · exact hmsg
    · show "User revoke access to the token" ≠ ""
      decide
  · intro backend parameter
    exact str_append_ne_empty "Missing needed parameter " parameter (by decide)

/-- C9 witness: concrete checks — a family member is a subclass of the
base, constructors store backend and parameter, and two concrete messages
are nonempty. -/
theorem C9_exception_taxonomy_witness :
    isSubclassOf ExcClass.AuthTokenRevoked ExcClass.SocialAuthBaseException = true ∧
    (authExceptionInit ExcClass.AuthFailed "facebook" ["bad"]).backend = "facebook" ∧
    (authMissingParameterInit "facebook" "code" []).parameter = some "code" ∧
    excUnicode (authExceptionInit ExcClass.AuthTokenError "facebook" ["bad"]) ≠ "" ∧
    excUnicode (authMissingParameterInit "facebook" "code" []) ≠ "" :=
  ⟨C9_exception_taxonomy.1 ExcClass.AuthTokenRevoked (by decide),
   C9_exception_taxonomy.2.2.2.1 ExcClass.AuthFailed "facebook" ["bad"],
   (C9_exception_taxonomy.2.2.2.2.1 "facebook" "code" []).2,
   C9_exception_taxonomy.2.2.2.2.2.1 ExcClass.AuthTokenError (by decide)
     "facebook" "bad" (by decide) (by decide),
   C9_exception_taxonomy.2.2.2.2.2.2 "facebook" "code"⟩

/-- C5: storing an OpenID association and then retrieving associations for
its (server_url, handle) yields exactly one association carrying the
original secret bytes (base64 decode inverts the encode applied at store
time), issuance time, lifetime and association type. The secret is a byte
string (each value below 256) and the store satisfies the uniqueness
invariant (at most one row per (server_url, handle)). -/
theorem C5_store_association_roundtrip (store : AssocStore) (nextId : Nat)
    (server_url : String) (a : OIDAssociation)
    (hsec : ∀ b ∈ a.secret, b < 256)
    (huniq : (store.filter (assocKeyMatch server_url a.handle)).length ≤ 1) :
    ∃ i : Nat,
      get_oid_associations (store_association store nextId server_url a)
          server_url (some a.handle) =
        [(i, OIDAssociation.mk a.handle a.secret a.issued a.lifetime
            a.assoc_type)] := by
  have hq : assocQueryMatch server_url (some a.handle) =
      assocKeyMatch server_url a.handle := by
    funext r
    rfl
  by_cases hex : store.any (assocKeyMatch server_url a.handle) = true
  · -- update branch: the keyed row exists and is overwritten in place
    have hlen1 : (store.filter (assocKeyMatch server_url a.handle)).length = 1 := by
      have hpos : 0 < (store.filter (assocKeyMatch server_url a.handle)).length := by
        rcases List.any_eq_true.mp hex with ⟨r, hrmem, hrmatch⟩
        refine List.length_pos.mpr (fun hnil => ?_)
        have hmem := List.mem_filter.mpr ⟨hrmem, hrmatch⟩
        rw [hnil] at hmem
        exact (List.not_mem_nil r) hmem
      omega
    rcases List.length_eq_one.mp hlen1 with ⟨r0, hr0⟩
    have hr0match : assocKeyMatch server_url a.handle r0 = true := by
      have hmem : r0 ∈ store.filter (assocKeyMatch server_url a.handle) := by
        rw [hr0]
        simp
      exact (List.mem_filter.mp hmem).2
    have hr0handle : r0.handle = a.handle := by
      unfold assocKeyMatch at hr0match
      simp only [Bool.and_eq_true, beq_iff_eq] at hr0match
      exact hr0match.2
    refine ⟨r0.id, ?_⟩
    unfold get_oid_associations store_association
    rw [hq, if_pos hex, List.filter_map]
    have hcomp : ∀ r ∈ store,
        (assocKeyMatch server_url a.handle ∘ updateAssocRow server_url a) r =
          assocKeyMatch server_url a.handle r := by
      intro r _
      show assocKeyMatch server_url a.handle (updateAssocRow server_url a r) =
        assocKeyMatch server_url a.handle r
      unfold updateAssocRow
      by_cases hr : assocKeyMatch server_url a.handle r = true
      · rw [if_pos hr, hr]
        unfold assocKeyMatch at hr ⊢
        simpa using hr
      · rw [if_neg hr]
    rw [List.filter_congr hcomp, hr0]
    simp only [List.map_cons, List.map_nil]
    unfold updateAssocRow
    rw [if_pos hr0match]
    simp [List.mergeSort_singleton, decodestring_encodestring a.secret hsec,
      hr0handle]
  · -- create branch: no keyed row exists, one is appended
    have hnil : store.filter (assocKeyMatch server_url a.handle) = [] := by
      rw [List.filter_eq_nil_iff]
      intro r hr hmatch
      exact hex (List.any_eq_true.mpr ⟨r, hr, hmatch⟩)
    refine ⟨nextId, ?_⟩
    unfold get_oid_associations store_association
    rw [hq, if_neg hex, List.filter_append, hnil, List.nil_append]
    have hrow : assocKeyMatch server_url a.handle
        ⟨nextId, server_url, a.handle, encodestring a.secret, a.issued,
          a.lifetime, a.assoc_type⟩ = true := by
      unfold assocKeyMatch
      simp
    rw [List.filter_cons_of_pos hrow]
    simp [List.mergeSort_singleton, decodestring_encodestring a.secret hsec]

/-- C5 witness: a concrete association stored into an empty table and
retrieved back. -/
theorem C5_store_association_roundtrip_witness :
    ∃ i : Nat,
      get_oid_associations
          (store_association [] 1 "https://idp.example.com"
            ⟨"h1", [0, 255, 7], 1700000000, 3600, "HMAC-SHA1"⟩)
          "https://idp.example.com" (some "h1") =
        [(i, OIDAssociation.mk "h1" [0, 255, 7] 1700000000 3600 "HMAC-SHA1")] :=
  C5_store_association_roundtrip [] 1 "https://idp.example.com"
    ⟨"h1", [0, 255, 7], 1700000000, 3600, "HMAC-SHA1"⟩ (by decide) (by decide)
